import Mathlib

/-!
Verification development for the `gh-cli` tool (`src/main.rs`), command
`close-milestone`: fan-out fetch of milestones over configured repositories,
aggregation by title under a pattern filter, interactive per-group
confirmation, and a fan-out of close (PATCH) calls per confirmed group.

The Rust program is shallowly embedded below.  HTTP interactions are
represented by outcome values supplied by the environment: a request either
fails at the transport level (`reqwest`'s `send()` future resolving to an
error) or yields a response with a numeric status code and, for the fetch
path, the result of deserializing the body as a milestone array.  Console
diagnostics (`eprintln!`) are collected as values.
-/

namespace GhCli

/-- Milestone record.  Modelled from the spec: the `github_api` module
(`src/github_api.rs`) is not part of the snapshot; per the spec a milestone
exposes at least a `title` string and a mutation locator URL, which are
exactly the two fields `main.rs` reads (`milestone.title`, `milestone.url`). -/
structure Milestone where
  title : String
  url : String
deriving DecidableEq, Repr

/-- `struct RepositoryMilestones` (main.rs lines 49-52). -/
structure RepositoryMilestones where
  repository : String
  milestones : List Milestone
deriving DecidableEq, Repr

/-- `settings::Authentication` (main.rs lines 23-27). -/
structure Authentication where
  username : String
  token : String
deriving DecidableEq, Repr

/-- `settings::GitHub` (main.rs lines 15-21); both fields have serde
defaults: empty list and `None`. -/
structure GitHub where
  repositories : List String
  auth : Option Authentication
deriving DecidableEq, Repr

/-- `settings::Root` (main.rs lines 10-13). -/
structure Root where
  github : GitHub
deriving DecidableEq, Repr

/-- `Default` for `settings::Root`: empty repository list, no credentials. -/
def Root.defaultRoot : Root := ⟨⟨[], none⟩⟩

/-- `enum Error` (main.rs lines 40-47).  The payloads irrelevant to control
flow are reduced: the config error to its message, the reqwest/io payloads
to nothing. -/
inductive Error where
  | NoConfigDir
  | InvalidConfigFile (msg : String)
  | Reqwest
  | AuthRequired
  | IoError
deriving DecidableEq, Repr

/-- State of the `settings.toml` configuration file as seen by main.rs
lines 67-79: either absent, or present with the outcome of parsing and
deserializing it into `settings::Root`. -/
inductive ConfigFileState where
  | missing
  | present (parsed : Except String Root)

/-- main.rs lines 67-79: an existing file is parsed, a failure becoming
`Error::InvalidConfigFile`; a missing file falls back to `Root::default()`.
(The `merge(...).expect("config should not be frozen")` step is modelled as
non-failing, per its message; parse and deserialize failures are the
`parsed` error case.) -/
def loadSettings : ConfigFileState → Except Error Root
  | .missing => .ok Root.defaultRoot
  | .present (.ok r) => .ok r
  | .present (.error e) => .error (.InvalidConfigFile e)

/-- Outcome of one `GET /repos/{repo}/milestones` request (main.rs lines
102-107): either the `send()` future fails (transport error), or a response
arrives carrying a status code and the result of
`response.json::<Vec<Milestone>>()` — `some ms` when the body deserializes
as a milestone array, `none` when it does not. -/
inductive FetchOutcome where
  | transportError
  | response (status : Nat) (parsed : Option (List Milestone))
deriving DecidableEq

/-- Diagnostic emitted by the fetch fallback (main.rs lines 114-118):
`eprintln!("Request to {} failed with statuscode {}", repo, status)`. -/
structure FetchDiag where
  repo : String
  status : Nat
deriving DecidableEq, Repr

/-- One repository's list-milestones call, main.rs lines 102-125:
`send().and_then(|response| response.json().or_else(|_| { eprintln!(...);
Ok(Vec::new()) }).map(|milestones| RepositoryMilestones { ... }))`.
A transport error of `send` propagates (the `and_then` chain only reacts to
the `json()` error); a body that fails to deserialize is replaced by the
empty list together with a diagnostic carrying the status code. -/
def fetchOne (repo : String) : FetchOutcome → Except Unit (RepositoryMilestones × List FetchDiag)
  | .transportError => .error ()
  | .response status none => .ok (⟨repo, []⟩, [⟨repo, status⟩])
  | .response _ (some ms) => .ok (⟨repo, ms⟩, [])

/-- The fetch fan-out joined by `future::join_all` (main.rs lines 99-128):
the joined future resolves to the list of per-repository results, or to an
error as soon as any member future fails, which `.map_err(Error::Reqwest)?`
then turns fatal.  Diagnostics are accumulated alongside. -/
def fetchAll : List (String × FetchOutcome) → Except Unit (List RepositoryMilestones × List FetchDiag)
  | [] => .ok ([], [])
  | (repo, o) :: rest =>
    match fetchOne repo o with
    | .error e => .error e
    | .ok (rm, d) =>
      match fetchAll rest with
      | .error e => .error e
      | .ok (rms, ds) => .ok (rm :: rms, d ++ ds)

/-- A group's member list: `(milestone url, repository)` pairs, exactly what
main.rs pushes into the `HashMap` values (lines 144, 147). -/
abbrev MemberList := List (String × String)

/-- Model of the `HashMap<String, Vec<(String, String)>>` contents: an
association list with unique keys, kept in insertion order (the `HashMap`
itself does not expose a deterministic order; only its contents, i.e.
lookup behavior, is semantically relevant and is modelled faithfully). -/
abbrev GroupMap := List (String × MemberList)

/-- The `map.entry(title)` step (main.rs lines 142-149): push onto the
existing entry when the key is occupied, otherwise insert a fresh
singleton entry. -/
def insertMember (title : String) (pr : String × String) : GroupMap → GroupMap
  | [] => [(title, [pr])]
  | (t, ms) :: rest =>
    if t = title then (t, ms ++ [pr]) :: rest
    else (t, ms) :: insertMember title pr rest

/-- Inner loop of the aggregation fold (main.rs lines 137-150): for each
milestone in list order, skip it unless the pattern matches its title,
otherwise add `(url, repository)` to the entry keyed by the title. -/
def addMilestones (p : String → Bool) (repo : String) (ms : List Milestone) (map : GroupMap) : GroupMap :=
  ms.foldl (fun map m => if p m.title then insertMember m.title (m.url, repo) map else map) map

/-- The aggregation fold over all repositories (main.rs lines 130-154),
starting from the empty map. -/
def aggregate (rms : List RepositoryMilestones) (p : String → Bool) : GroupMap :=
  rms.foldl (fun map rm => addMilestones p rm.repository rm.milestones map) []

/-- Lookup of a title among the groups; models reading the `HashMap` entry
for that key. -/
def lookupTitle : GroupMap → String → Option MemberList
  | [], _ => none
  | (t, ms) :: rest, T => if t = T then some ms else lookupTitle rest T

/-- Outcome of one `PATCH {url}` close request (main.rs lines 188-196):
either the `send()` future fails at the transport level, or a response with
a status code arrives (its body is never inspected). -/
inductive CloseOutcome where
  | transportError
  | response (status : Nat)
deriving DecidableEq

/-- `http::StatusCode::is_success`: 2xx. -/
def statusIsSuccess (s : Nat) : Bool := 200 ≤ s && s < 300

/-- Diagnostic emitted on a non-success close response (main.rs line 199):
`eprintln!("Failed to close milestone for repository {}", repo)`. -/
structure CloseDiag where
  repo : String
deriving DecidableEq, Repr

/-- The close fan-out over one group's members joined by `future::join_all`
(main.rs lines 183-206): each member issues its PATCH; a non-success
response only emits a diagnostic naming the repository and resolves `Ok(())`
(lines 197-202); a transport error fails the member future and hence the
join.  Returns the list of urls whose close call resolved together with the
diagnostics, or an error when some member's `send` failed. -/
def closeAll (members : MemberList) (env : String → CloseOutcome) : Except Unit (List String × List CloseDiag) :=
  match members with
  | [] => .ok ([], [])
  | (url, repo) :: rest =>
    match env url with
    | .transportError => .error ()
    | .response s =>
      match closeAll rest env with
      | .error e => .error e
      | .ok (calls, diags) =>
        .ok (url :: calls, (if statusIsSuccess s then [] else [⟨repo⟩]) ++ diags)

/-- Record of processing one group in the interaction loop (main.rs lines
164-208): the presented title and members, the confirmation answer, and —
when confirmed — the close calls issued and diagnostics emitted. -/
structure GroupStep where
  title : String
  members : MemberList
  confirmed : Bool
  calls : List String
  diags : List CloseDiag
deriving DecidableEq, Repr

/-- The interaction loop (main.rs lines 164-208): groups strictly in
sequence; each is presented, then confirmed via the prompt (modelled as a
function of the group's title, titles being unique keys); a confirmed group
runs its close fan-out, whose transport error is made fatal by
`.map_err(Error::Reqwest)?`; a declined group issues nothing. -/
def runGroups (groups : GroupMap) (confirm : String → Bool) (env : String → CloseOutcome) : Except Unit (List GroupStep) :=
  match groups with
  | [] => .ok []
  | (title, members) :: rest =>
    if confirm title then
      match closeAll members env with
      | .error e => .error e
      | .ok (calls, diags) =>
        match runGroups rest confirm env with
        | .error e => .error e
        | .ok steps => .ok (⟨title, members, true, calls, diags⟩ :: steps)
    else
      match runGroups rest confirm env with
      | .error e => .error e
      | .ok steps => .ok (⟨title, members, false, [], []⟩ :: steps)

/-- Observable output of a completed `close-milestone` run: the summary
line count and pattern (main.rs lines 157-162), fetch diagnostics, and the
per-group steps. -/
structure RunOutput where
  summaryCount : Nat
  patternShown : String
  fetchDiags : List FetchDiag
  steps : List GroupStep
deriving DecidableEq, Repr

/-- The `Commands::CloseMilestone` arm of `main` (main.rs lines 86-208),
after settings destructuring: require credentials
(`auth.ok_or(Error::AuthRequired)?`, line 91), run the fetch fan-out
(fatal `Error::Reqwest` on a transport failure, line 128), aggregate,
print the summary (count = number of groups), then run the interaction
loop (fatal `Error::Reqwest` on a close transport failure, line 206). -/
def runCloseMilestone (auth : Option Authentication) (fetches : List (String × FetchOutcome))
    (patternStr : String) (p : String → Bool) (confirm : String → Bool)
    (closeEnv : String → CloseOutcome) : Except Error RunOutput :=
  match auth with
  | none => .error .AuthRequired
  | some _ =>
    match fetchAll fetches with
    | .error _ => .error .Reqwest
    | .ok (rms, fds) =>
      match runGroups (aggregate rms p) confirm closeEnv with
      | .error _ => .error .Reqwest
      | .ok steps => .ok ⟨(aggregate rms p).length, patternStr, fds, steps⟩

/-- `main` (main.rs lines 54-213): locate the config directory
(`Error::NoConfigDir` when absent), load settings, then dispatch the
`close-milestone` command.  The fetch outcome of a repository is supplied
by `fetchEnv`. -/
def mainRun (hasConfigDir : Bool) (cfg : ConfigFileState) (patternStr : String)
    (p : String → Bool) (fetchEnv : String → FetchOutcome) (confirm : String → Bool)
    (closeEnv : String → CloseOutcome) : Except Error RunOutput :=
  if hasConfigDir then
    match loadSettings cfg with
    | .error e => .error e
    | .ok s =>
      runCloseMilestone s.github.auth (s.github.repositories.map (fun r => (r, fetchEnv r)))
        patternStr p confirm closeEnv
  else .error .NoConfigDir

/-- Model of `regex::Regex::is_match` for a literal pattern (one with no
regex metacharacters, such as the spec's example `Sprint 1`): the regex
engine is an external crate whose documented `is_match` semantics is an
unanchored search — true exactly when the pattern matches somewhere inside
the haystack, i.e. when the pattern's character list is an infix of the
haystack's. -/
def isMatchLiteral (pat title : String) : Bool :=
  decide (pat.toList <:+: title.toList)

/-- Specification helper: the pairs a single repository's milestone list
contributes to the group keyed `T` — its milestones whose title matches the
pattern and equals `T`, in list order, each as `(url, repo)`. -/
def contribMs (p : String → Bool) (repo T : String) (ms : List Milestone) : MemberList :=
  (ms.filter (fun m => p m.title && (m.title == T))).map (fun m => (m.url, repo))

/-- Specification helper: all pairs contributed to the group keyed `T`,
repositories in input order, milestones in per-repository list order. -/
def contribAll (p : String → Bool) (T : String) (rms : List RepositoryMilestones) : MemberList :=
  (rms.map (fun rm => contribMs p rm.repository T rm.milestones)).flatten

/-- Specification helper: how a group's stored member list grows by a batch
of appended contributions (`none` = the group does not exist yet; a group is
only created when a first contribution arrives). -/
def combine (o : Option MemberList) (l : MemberList) : Option MemberList :=
  match o with
  | some ms => some (ms ++ l)
  | none => if l = [] then none else some l

/-- Specification helper: the interaction loop's expected steps when every
close request yields a response with status `statusOf url` (no transport
errors): every group is presented; a confirmed group attempts every member
and collects a diagnostic per non-success member; a declined group issues
nothing. -/
def canonicalSteps (groups : GroupMap) (confirm : String → Bool) (statusOf : String → Nat) : List GroupStep :=
  groups.map (fun g =>
    if confirm g.1 then
      ⟨g.1, g.2, true, g.2.map (fun pr => pr.1),
        (g.2.filter (fun pr => !statusIsSuccess (statusOf pr.1))).map (fun pr => ⟨pr.2⟩)⟩
    else ⟨g.1, g.2, false, [], []⟩)

/-! ## Helper lemmas about the aggregation fold -/

theorem combine_nil (o : Option MemberList) : combine o [] = o := by
  cases o <;> simp [combine]

theorem combine_append (o : Option MemberList) (l₁ l₂ : MemberList) :
    combine (combine o l₁) l₂ = combine o (l₁ ++ l₂) := by
  cases o with
  | some ms => simp [combine]
  | none =>
    by_cases h : l₁ = []
    · subst h; simp [combine]
    · have h2 : l₁ ++ l₂ ≠ [] := fun hc => h (List.append_eq_nil.mp hc).1
      simp [combine, h, h2]

theorem combine_snoc (o : Option MemberList) (x : String × String) (l : MemberList) :
    combine (some ((o.getD []) ++ [x])) l = combine o (x :: l) := by
  cases o <;> simp [combine]

theorem lookupTitle_insertMember (map : GroupMap) (t T : String) (pr : String × String) :
    lookupTitle (insertMember t pr map) T =
      if t = T then some (((lookupTitle map T).getD []) ++ [pr])
      else lookupTitle map T := by
  induction map with
  | nil => by_cases h : t = T <;> simp [insertMember, lookupTitle, h]
  | cons hd tl ih =>
    obtain ⟨t', ms⟩ := hd
    by_cases h1 : t' = t
    · subst h1
      by_cases h2 : t' = T <;> simp [insertMember, lookupTitle, h2]
    · by_cases h2 : t' = T
      · subst h2
        have h3 : t ≠ t' := fun hc => h1 hc.symm
        simp [insertMember, lookupTitle, h1, h3]
      · simp [insertMember, lookupTitle, h1, h2, ih]

theorem contribMs_cons_matchT (p : String → Bool) (repo T : String) (m : Milestone)
    (rest : List Milestone) (hp : p m.title = true) (ht : m.title = T) :
    contribMs p repo T (m :: rest) = (m.url, repo) :: contribMs p repo T rest := by
  subst ht
  simp [contribMs, List.filter_cons, hp]

theorem contribMs_cons_skip (p : String → Bool) (repo T : String) (m : Milestone)
    (rest : List Milestone) (h : ¬(p m.title = true ∧ m.title = T)) :
    contribMs p repo T (m :: rest) = contribMs p repo T rest := by
  by_cases hp : p m.title = true
  · have ht : ¬ m.title = T := fun hc => h ⟨hp, hc⟩
    simp [contribMs, List.filter_cons, hp, ht]
  · simp [contribMs, List.filter_cons, hp]

theorem lookupTitle_addMilestones (p : String → Bool) (repo : String) (ms : List Milestone)
    (map : GroupMap) (T : String) :
    lookupTitle (addMilestones p repo ms map) T
      = combine (lookupTitle map T) (contribMs p repo T ms) := by
  induction ms generalizing map with
  | nil => simp [addMilestones, contribMs, combine_nil]
  | cons m rest ih =>
    by_cases hp : p m.title = true
    · have hstep : addMilestones p repo (m :: rest) map
          = addMilestones p repo rest (insertMember m.title (m.url, repo) map) := by
        simp [addMilestones, List.foldl_cons, hp]
      by_cases ht : m.title = T
      · rw [hstep, ih, lookupTitle_insertMember, contribMs_cons_matchT p repo T m rest hp ht,
          if_pos ht, ← combine_snoc]
      · rw [hstep, ih, lookupTitle_insertMember, if_neg ht,
          contribMs_cons_skip p repo T m rest (fun hc => ht hc.2)]
    · have hstep : addMilestones p repo (m :: rest) map = addMilestones p repo rest map := by
        simp [addMilestones, List.foldl_cons, hp]
      rw [hstep, ih, contribMs_cons_skip p repo T m rest (fun hc => hp hc.1)]

theorem lookupTitle_aggregate_aux (p : String → Bool) (rms : List RepositoryMilestones)
    (map : GroupMap) (T : String) :
    lookupTitle (rms.foldl (fun map rm => addMilestones p rm.repository rm.milestones map) map) T
      = combine (lookupTitle map T) (contribAll p T rms) := by
  induction rms generalizing map with
  | nil => simp [contribAll, combine_nil]
  | cons rm rest ih =>
    simp only [List.foldl_cons]
    rw [ih, lookupTitle_addMilestones, combine_append]
    simp [contribAll]

theorem lookupTitle_aggregate (rms : List RepositoryMilestones) (p : String → Bool) (T : String) :
    lookupTitle (aggregate rms p) T = combine none (contribAll p T rms) := by
  have h := lookupTitle_aggregate_aux p rms [] T
  simpa [aggregate, lookupTitle] using h

theorem contribMs_of_pos (p : String → Bool) (repo T : String) (ms : List Milestone)
    (h : p T = true) :
    contribMs p repo T ms
      = (ms.filter (fun m => m.title == T)).map (fun m => (m.url, repo)) := by
  unfold contribMs
  congr 1
  apply List.filter_congr
  intro m _
  by_cases ht : m.title = T
  · simp [ht, h]
  · simp [ht]

theorem contribMs_of_neg (p : String → Bool) (repo T : String) (ms : List Milestone)
    (h : p T = false) : contribMs p repo T ms = [] := by
  unfold contribMs
  have hf : ms.filter (fun m => p m.title && (m.title == T)) = [] := by
    rw [List.filter_eq_nil_iff]
    intro m _
    by_cases ht : m.title = T
    · simp [ht, h]
    · simp [ht]
  simp [hf]

theorem contribAll_of_neg (p : String → Bool) (T : String) (rms : List RepositoryMilestones)
    (h : p T = false) : contribAll p T rms = [] := by
  unfold contribAll
  induction rms with
  | nil => simp
  | cons rm rest ih => simpa [contribMs_of_neg p rm.repository T rm.milestones h] using ih

theorem contribAll_of_pos (p : String → Bool) (T : String) (rms : List RepositoryMilestones)
    (h : p T = true) :
    contribAll p T rms
      = (rms.map (fun rm =>
          (rm.milestones.filter (fun m => m.title == T)).map
            (fun m => (m.url, rm.repository)))).flatten := by
  unfold contribAll
  congr 1
  exact List.map_congr_left (fun rm _ => contribMs_of_pos p rm.repository T rm.milestones h)

theorem mem_contribAll_elim (rms : List RepositoryMilestones) (p : String → Bool) (T : String)
    (pr : String × String) (hpr : pr ∈ contribAll p T rms) :
    ∃ rm ∈ rms, ∃ m ∈ rm.milestones,
      m.title = T ∧ p m.title = true ∧ pr = (m.url, rm.repository) := by
  rw [contribAll, List.mem_flatten] at hpr
  obtain ⟨l, hl, hprl⟩ := hpr
  rw [List.mem_map] at hl
  obtain ⟨rm, hrm, rfl⟩ := hl
  rw [contribMs, List.mem_map] at hprl
  obtain ⟨m, hm, rfl⟩ := hprl
  rw [List.mem_filter] at hm
  have hcond := hm.2
  simp only [Bool.and_eq_true, beq_iff_eq] at hcond
  exact ⟨rm, hrm, m, hm.1, hcond.2, hcond.1, rfl⟩

theorem contribAll_ne_nil_iff (p : String → Bool) (T : String) (rms : List RepositoryMilestones) :
    contribAll p T rms ≠ []
      ↔ ∃ rm ∈ rms, ∃ m ∈ rm.milestones, m.title = T ∧ p m.title = true := by
  constructor
  · intro h
    obtain ⟨pr, hpr⟩ := List.exists_mem_of_ne_nil _ h
    obtain ⟨rm, hrm, m, hm, ht, hp, _⟩ := mem_contribAll_elim rms p T pr hpr
    exact ⟨rm, hrm, m, hm, ht, hp⟩
  · rintro ⟨rm, hrm, m, hm, ht, hp⟩ hnil
    have hmem : (m.url, rm.repository) ∈ contribAll p T rms := by
      rw [contribAll, List.mem_flatten]
      refine ⟨contribMs p rm.repository T rm.milestones, List.mem_map.mpr ⟨rm, hrm, rfl⟩, ?_⟩
      rw [contribMs, List.mem_map]
      exact ⟨m, List.mem_filter.mpr ⟨hm, by simp only [Bool.and_eq_true, beq_iff_eq]; exact ⟨hp, ht⟩⟩, rfl⟩
    rw [hnil] at hmem
    exact List.not_mem_nil _ hmem

theorem lookupTitle_aggregate_some (rms : List RepositoryMilestones) (p : String → Bool)
    (T : String) (l : MemberList) (h : lookupTitle (aggregate rms p) T = some l) :
    p T = true ∧ l = contribAll p T rms := by
  rw [lookupTitle_aggregate] at h
  by_cases hp : p T = true
  · refine ⟨hp, ?_⟩
    by_cases hx : contribAll p T rms = []
    · rw [hx] at h; simp [combine] at h
    · have heq : combine none (contribAll p T rms) = some (contribAll p T rms) := by
        simp [combine, hx]
      rw [heq] at h
      exact (Option.some.inj h).symm
  · have hp2 : p T = false := by revert hp; cases hb : p T <;> simp
    rw [contribAll_of_neg p T rms hp2] at h
    simp [combine] at h

/-! ## Helper lemmas about the fetch and close fan-outs -/

theorem fetchAll_append (l₁ l₂ : List (String × FetchOutcome)) :
    fetchAll (l₁ ++ l₂)
      = match fetchAll l₁, fetchAll l₂ with
        | .ok (a, d), .ok (b, e) => .ok (a ++ b, d ++ e)
        | .error e, _ => .error e
        | .ok _, .error e => .error e := by
  induction l₁ with
  | nil =>
    cases h : fetchAll l₂ with
    | ok v => obtain ⟨b, e⟩ := v; simp [fetchAll, h]
    | error e => simp [fetchAll, h]
  | cons hd tl ih =>
    obtain ⟨repo, o⟩ := hd
    cases ho : fetchOne repo o with
    | error e => simp [fetchAll, ho]
    | ok v =>
      obtain ⟨rm, d⟩ := v
      cases h1 : fetchAll tl with
      | error e => simp [fetchAll, ho, ih, h1]
      | ok v1 =>
        obtain ⟨rms, ds⟩ := v1
        cases h2 : fetchAll l₂ with
        | error e => simp [fetchAll, ho, ih, h1, h2]
        | ok v2 =>
          obtain ⟨rms2, ds2⟩ := v2
          simp [fetchAll, ho, ih, h1, h2]

theorem closeAll_responses (members : MemberList) (statusOf : String → Nat) :
    closeAll members (fun u => .response (statusOf u))
      = .ok (members.map (fun pr => pr.1),
             (members.filter (fun pr => !statusIsSuccess (statusOf pr.1))).map
               (fun pr => (⟨pr.2⟩ : CloseDiag))) := by
  induction members with
  | nil => rfl
  | cons hd tl ih =>
    obtain ⟨url, repo⟩ := hd
    by_cases hs : statusIsSuccess (statusOf url) = true
    · simp [closeAll, ih, List.filter_cons, hs]
    · simp [closeAll, ih, List.filter_cons, hs]

theorem runGroups_responses (groups : GroupMap) (confirm : String → Bool)
    (statusOf : String → Nat) :
    runGroups groups confirm (fun u => .response (statusOf u))
      = .ok (canonicalSteps groups confirm statusOf) := by
  induction groups with
  | nil => rfl
  | cons g rest ih =>
    obtain ⟨title, members⟩ := g
    by_cases hc : confirm title = true
    · simp [runGroups, hc, closeAll_responses, ih, canonicalSteps]
    · simp [runGroups, hc, ih, canonicalSteps]

theorem count_filter_flatten (rms : List RepositoryMilestones) (T r : String) :
    (((rms.map (fun rm => (rm.milestones.filter (fun m => m.title == T)).map
          (fun m => (m.url, rm.repository)))).flatten).filter (fun pr => pr.2 == r)).length
      = ((rms.filter (fun rm => rm.repository == r)).map
          (fun rm => (rm.milestones.filter (fun m => m.title == T)).length)).sum := by
  induction rms with
  | nil => rfl
  | cons rm rest ih =>
    simp only [List.map_cons, List.flatten_cons, List.filter_append, List.length_append,
      List.filter_cons]
    by_cases hr : rm.repository = r
    · have hall : ((rm.milestones.filter (fun m => m.title == T)).map
            (fun m => (m.url, rm.repository))).filter (fun pr => pr.2 == r)
          = (rm.milestones.filter (fun m => m.title == T)).map
              (fun m => (m.url, rm.repository)) := by
        rw [List.filter_eq_self]
        intro pr hpr
        rw [List.mem_map] at hpr
        obtain ⟨m, _, rfl⟩ := hpr
        simp [hr]
      rw [hall, ih]
      simp [hr]
    · have hnone : ((rm.milestones.filter (fun m => m.title == T)).map
            (fun m => (m.url, rm.repository))).filter (fun pr => pr.2 == r) = [] := by
        rw [List.filter_eq_nil_iff]
        intro pr hpr
        rw [List.mem_map] at hpr
        obtain ⟨m, _, rfl⟩ := hpr
        simp [hr]
      rw [hnone, ih]
      simp [hr]

/-! ## The claims -/

/-- C1, counterexample: the claim says a single repository's list-milestones
failure — "whether a non-success response or a transport error" — is never
propagated as a fatal error of the run.  But a transport error of `send()`
flows through the `and_then` chain (main.rs line 108), fails the
`future::join_all`, and `.map_err(Error::Reqwest)?` (line 128) aborts the
whole run: with one repository failing at the transport level the run
returns the fatal `Error::Reqwest`. -/
theorem fetch_transport_error_is_fatal :
    runCloseMilestone (some ⟨"user", "tok"⟩)
        [("a/x", .transportError), ("a/y", .response 200 (some [⟨"Sprint 1", "u2"⟩]))]
        "Sprint 1" (fun t => t == "Sprint 1") (fun _ => true) (fun _ => .response 200)
      = .error .Reqwest := by
  rfl

/-- C1, amended: for a repository whose list-milestones call fails with a
response whose body does not deserialize as a milestone array (which is how
non-success responses surface; only such failures are caught by the
`or_else` on main.rs lines 113-120), the failure is never fatal: the run
errs exactly when the run with that repository substituted by an empty
milestone list errs, the aggregated output is identical to that substituted
run for every pattern, and a diagnostic carrying the repository and the
numeric status code is emitted.  (Transport errors of `send()` remain
fatal, per the counterexample.) -/
theorem fetch_body_failure_isolated (pre suf : List (String × FetchOutcome)) (r : String)
    (s : Nat) (p : String → Bool) :
    ((fetchAll (pre ++ (r, .response s none) :: suf)).map (fun x => aggregate x.1 p)
        = (fetchAll (pre ++ (r, .response 200 (some [])) :: suf)).map (fun x => aggregate x.1 p))
    ∧ ((fetchAll (pre ++ (r, .response s none) :: suf)).toBool
        = (fetchAll (pre ++ (r, .response 200 (some [])) :: suf)).toBool)
    ∧ ∀ rms ds, fetchAll (pre ++ (r, .response s none) :: suf) = .ok (rms, ds)
        → (⟨r, s⟩ : FetchDiag) ∈ ds := by
  have hmid1 : fetchAll ((r, FetchOutcome.response s none) :: suf)
      = match fetchAll suf with
        | .error e => .error e
        | .ok (rms, ds) => .ok (⟨r, []⟩ :: rms, ⟨r, s⟩ :: ds) := by
    cases hsuf : fetchAll suf with
    | error e => simp [fetchAll, fetchOne, hsuf]
    | ok v => obtain ⟨rms, ds⟩ := v; simp [fetchAll, fetchOne, hsuf]
  have hmid2 : fetchAll ((r, FetchOutcome.response 200 (some [])) :: suf)
      = match fetchAll suf with
        | .error e => .error e
        | .ok (rms, ds) => .ok (⟨r, []⟩ :: rms, ds) := by
    cases hsuf : fetchAll suf with
    | error e => simp [fetchAll, fetchOne, hsuf]
    | ok v => obtain ⟨rms, ds⟩ := v; simp [fetchAll, fetchOne, hsuf]
  rw [fetchAll_append, fetchAll_append, hmid1, hmid2]
  cases hpre : fetchAll pre with
  | error e => simp [Except.map, Except.toBool]
  | ok v =>
    obtain ⟨rms₁, ds₁⟩ := v
    cases hsuf : fetchAll suf with
    | error e => simp [Except.map, Except.toBool]
    | ok v2 =>
      obtain ⟨rms₂, ds₂⟩ := v2
      refine ⟨rfl, rfl, ?_⟩
      intro rms ds h
      have h2 := (Except.ok.inj h)
      have hds : ds₁ ++ (⟨r, s⟩ :: ds₂) = ds := congrArg Prod.snd h2
      rw [← hds]
      simp

/-- C1 amended, witness: a single repository answering 404 with an
unparsable body is tolerated and its diagnostic carries the 404. -/
theorem fetch_body_failure_isolated_witness :
    (⟨"a/x", 404⟩ : FetchDiag) ∈ [(⟨"a/x", 404⟩ : FetchDiag)] :=
  (fetch_body_failure_isolated [] [] "a/x" 404 (fun _ => true)).2.2
    [⟨"a/x", []⟩] [⟨"a/x", 404⟩] (by rfl)

/-- C2, counterexample: the claim says a failure of one member's close call
— including a transport error — does not affect siblings or subsequent
groups.  But a transport error of a close `send()` fails the
`future::join_all` (main.rs lines 183-205) and `.map_err(Error::Reqwest)?`
(line 206) aborts the whole run: with member `u1` of the first confirmed
group failing at the transport level, the run returns the fatal
`Error::Reqwest`, and neither sibling `u2` nor the second group is
reported. -/
theorem close_transport_error_is_fatal :
    runCloseMilestone (some ⟨"user", "tok"⟩)
        [("a/x", .response 200 (some [⟨"Sprint 1", "u1"⟩])),
         ("a/y", .response 200 (some [⟨"Sprint 1", "u2"⟩, ⟨"Sprint 2", "u3"⟩]))]
        "Sprint" (fun _ => true) (fun _ => true)
        (fun u => if u = "u1" then .transportError else .response 200)
      = .error .Reqwest := by
  rfl

/-- C2, amended: when every close request resolves to a response (no
transport error), failures are isolated per member: the interaction loop
succeeds, every group is presented, every member of every confirmed group
is attempted regardless of the other members' statuses, a member with a
non-success status contributes exactly a diagnostic naming its repository,
and the titles, members, confirmations and issued calls are independent of
the statuses (closes over a status function; transport errors are fatal,
per the counterexample). -/
theorem close_status_failure_isolated (groups : GroupMap) (confirm : String → Bool)
    (statusOf : String → Nat) :
    runGroups groups confirm (fun u => .response (statusOf u))
      = .ok (canonicalSteps groups confirm statusOf)
    ∧ (canonicalSteps groups confirm statusOf).map
          (fun st => (st.title, st.members, st.confirmed, st.calls))
        = (canonicalSteps groups confirm (fun _ => 200)).map
          (fun st => (st.title, st.members, st.confirmed, st.calls)) := by
  refine ⟨runGroups_responses groups confirm statusOf, ?_⟩
  simp only [canonicalSteps, List.map_map]
  apply List.map_congr_left
  intro g _
  by_cases hc : confirm g.1 = true <;> simp [hc, Function.comp]

/-- C3, counterexample: the claim says a non-2xx status response yields the
substituted empty list and a diagnostic with the status code.  But the code
only reacts to the `json()` deserialization result (main.rs lines 108-125):
a 404 response whose body deserializes as a milestone array yields exactly
that array with no diagnostic. -/
theorem nonsuccess_parsed_body_kept :
    fetchOne "a/x" (.response 404 (some [⟨"Sprint 1", "u1"⟩]))
        = .ok (⟨"a/x", [⟨"Sprint 1", "u1"⟩]⟩, [])
    ∧ ¬ fetchOne "a/x" (.response 404 (some [⟨"Sprint 1", "u1"⟩]))
        = .ok (⟨"a/x", []⟩, [⟨"a/x", 404⟩]) := by
  refine ⟨rfl, ?_⟩
  intro h
  simp [fetchOne] at h

/-- C3, amended: the repository's contribution is decided solely by
deserializability of the body (main.rs lines 108-125): a body that fails
to deserialize as a milestone array — whatever the status — yields the
substituted empty list and a diagnostic carrying that response's numeric
status code; a body that deserializes yields exactly that milestone list
with no diagnostic, whatever the status. -/
theorem fetch_contribution_decided_by_body (repo : String) (s : Nat) :
    fetchOne repo (.response s none) = .ok (⟨repo, []⟩, [⟨repo, s⟩])
    ∧ ∀ ms : List Milestone, fetchOne repo (.response s (some ms)) = .ok (⟨repo, ms⟩, []) :=
  ⟨rfl, fun _ => rfl⟩

/-- C4: the aggregation (main.rs lines 130-154) contains a group keyed `T`
iff some repository has a milestone titled exactly `T` whose title matches
the pattern (evaluated against the unmodified title string), and no group
is ever empty. -/
theorem aggregate_group_exists_iff_match (rms : List RepositoryMilestones) (p : String → Bool)
    (T : String) :
    ((lookupTitle (aggregate rms p) T).isSome = true
      ↔ ∃ rm ∈ rms, ∃ m ∈ rm.milestones, m.title = T ∧ p m.title = true)
    ∧ ∀ l, lookupTitle (aggregate rms p) T = some l → l ≠ [] := by
  constructor
  · rw [lookupTitle_aggregate]
    by_cases hc : contribAll p T rms = []
    · constructor
      · intro h; rw [hc] at h; simp [combine] at h
      · intro hex
        exact absurd hc ((contribAll_ne_nil_iff p T rms).mpr hex)
    · have heq : combine none (contribAll p T rms) = some (contribAll p T rms) := by
        simp [combine, hc]
      rw [heq]
      constructor
      · intro _; exact (contribAll_ne_nil_iff p T rms).mp hc
      · intro _; rfl
  · intro l hl
    obtain ⟨_, hl2⟩ := lookupTitle_aggregate_some rms p T l hl
    rw [lookupTitle_aggregate] at hl
    by_cases hx : contribAll p T rms = []
    · rw [hx] at hl; simp [combine] at hl
    · rw [hl2]; exact hx

/-- C4, witness at the spec's scenario: one repository with milestone
`Sprint 1` and the literal pattern. -/
theorem aggregate_group_exists_iff_match_witness :
    ((lookupTitle (aggregate [⟨"a/x", [⟨"Sprint 1", "u1"⟩]⟩] (fun t => t == "Sprint 1"))
          "Sprint 1").isSome = true
      ↔ ∃ rm ∈ [(⟨"a/x", [⟨"Sprint 1", "u1"⟩]⟩ : RepositoryMilestones)],
          ∃ m ∈ rm.milestones, m.title = "Sprint 1" ∧ (fun t => t == "Sprint 1") m.title = true)
    ∧ ∀ l, lookupTitle (aggregate [⟨"a/x", [⟨"Sprint 1", "u1"⟩]⟩] (fun t => t == "Sprint 1"))
          "Sprint 1" = some l → l ≠ [] :=
  aggregate_group_exists_iff_match [⟨"a/x", [⟨"Sprint 1", "u1"⟩]⟩] (fun t => t == "Sprint 1")
    "Sprint 1"

/-- C5: the Aggregator is a pure function (two applications coincide), and
every group's member list is exactly the input-traversal-order list:
repositories in input order and, within one repository, milestones in that
repository's list order. -/
theorem aggregate_deterministic_and_ordered (rms : List RepositoryMilestones)
    (p : String → Bool) :
    aggregate rms p = aggregate rms p
    ∧ ∀ T l, lookupTitle (aggregate rms p) T = some l →
        l = (rms.map (fun rm =>
              (rm.milestones.filter (fun m => m.title == T)).map
                (fun m => (m.url, rm.repository)))).flatten := by
  refine ⟨rfl, fun T l hl => ?_⟩
  obtain ⟨hp, hl2⟩ := lookupTitle_aggregate_some rms p T l hl
  rw [hl2, contribAll_of_pos p T rms hp]

/-- C5, witness at the spec's scenario: two repositories sharing title
`Sprint 1`; the group's members come out as `[(u1, a/x), (u2, a/y)]`. -/
theorem aggregate_deterministic_and_ordered_witness :
    ([("u1", "a/x"), ("u2", "a/y")] : MemberList)
      = (([⟨"a/x", [⟨"Sprint 1", "u1"⟩]⟩,
           ⟨"a/y", [⟨"Sprint 1", "u2"⟩, ⟨"Sprint 2", "u3"⟩]⟩] : List RepositoryMilestones).map
          (fun rm => (rm.milestones.filter (fun m => m.title == "Sprint 1")).map
            (fun m => (m.url, rm.repository)))).flatten :=
  (aggregate_deterministic_and_ordered
      [⟨"a/x", [⟨"Sprint 1", "u1"⟩]⟩, ⟨"a/y", [⟨"Sprint 1", "u2"⟩, ⟨"Sprint 2", "u3"⟩]⟩]
      (fun t => t == "Sprint 1")).2 "Sprint 1" [("u1", "a/x"), ("u2", "a/y")] (by rfl)

/-- C6: declining the confirmation prompt for a group issues zero close
calls for that group's members, and processing proceeds to the next group:
the declined group's step records no calls and no diagnostics, and the rest
of the loop is exactly the loop on the remaining groups. -/
theorem decline_confirmation_no_close_calls (title : String) (members : MemberList)
    (rest : GroupMap) (confirm : String → Bool) (env : String → CloseOutcome)
    (h : confirm title = false) :
    runGroups ((title, members) :: rest) confirm env
      = (runGroups rest confirm env).map
          (fun steps => (⟨title, members, false, [], []⟩ : GroupStep) :: steps) := by
  have h2 : ¬ confirm title = true := by simp [h]
  cases hr : runGroups rest confirm env with
  | error e => simp [runGroups, h2, hr, Except.map]
  | ok steps => simp [runGroups, h2, hr, Except.map]

/-- C6, witness: the first group `Sprint 1` is declined (the operator only
confirms `Sprint 2`); it contributes no close calls and the second group is
still processed. -/
theorem decline_confirmation_no_close_calls_witness :
    runGroups [("Sprint 1", [("u1", "a/x")]), ("Sprint 2", [("u3", "a/y")])]
        (fun t => t == "Sprint 2") (fun _ => .response 200)
      = (runGroups [("Sprint 2", [("u3", "a/y")])]
            (fun t => t == "Sprint 2") (fun _ => .response 200)).map
          (fun steps => (⟨"Sprint 1", [("u1", "a/x")], false, [], []⟩ : GroupStep) :: steps) :=
  decline_confirmation_no_close_calls "Sprint 1" [("u1", "a/x")]
    [("Sprint 2", [("u3", "a/y")])] (fun t => t == "Sprint 2") (fun _ => .response 200)
    (by rfl)

/-- C7: when the fetch phase succeeds and the aggregated group mapping is
empty, the run prints the summary with count 0 together with the pattern
(main.rs lines 157-162), performs no group step — hence no confirmation
prompt and no close call — and terminates successfully (`main` returns
`Ok(())`, exit code 0). -/
theorem empty_aggregate_zero_summary (a : Authentication)
    (fetches : List (String × FetchOutcome)) (patternStr : String) (p : String → Bool)
    (confirm : String → Bool) (closeEnv : String → CloseOutcome)
    (rms : List RepositoryMilestones) (fds : List FetchDiag)
    (h1 : fetchAll fetches = .ok (rms, fds)) (h2 : aggregate rms p = []) :
    runCloseMilestone (some a) fetches patternStr p confirm closeEnv
      = .ok ⟨0, patternStr, fds, []⟩ := by
  simp [runCloseMilestone, h1, h2, runGroups]

/-- C7, witness: one repository whose only milestone does not match the
pattern; the run succeeds with a count-0 summary and no steps. -/
theorem empty_aggregate_zero_summary_witness :
    runCloseMilestone (some ⟨"user", "tok"⟩)
        [("a/x", .response 200 (some [⟨"Other", "u9"⟩]))] "Sprint 1"
        (fun t => t == "Sprint 1") (fun _ => true) (fun _ => .response 200)
      = .ok ⟨0, "Sprint 1", [], []⟩ :=
  empty_aggregate_zero_summary ⟨"user", "tok"⟩
    [("a/x", .response 200 (some [⟨"Other", "u9"⟩]))] "Sprint 1"
    (fun t => t == "Sprint 1") (fun _ => true) (fun _ => .response 200)
    [⟨"a/x", [⟨"Other", "u9"⟩]⟩] [] (by rfl) (by rfl)

/-- C8: invariant of the aggregation output — every member pair of the
group keyed `T` was produced from a milestone whose title string is exactly
`T`, and each repository contributes exactly one pair per milestone it has
with that exact title (counted here per repository identifier). -/
theorem aggregate_group_invariant (rms : List RepositoryMilestones) (p : String → Bool)
    (T : String) (l : MemberList) (h : lookupTitle (aggregate rms p) T = some l) :
    (∀ pr ∈ l, ∃ rm ∈ rms, ∃ m ∈ rm.milestones, m.title = T ∧ pr = (m.url, rm.repository))
    ∧ ∀ r : String,
        (l.filter (fun pr => pr.2 == r)).length
          = ((rms.filter (fun rm => rm.repository == r)).map
              (fun rm => (rm.milestones.filter (fun m => m.title == T)).length)).sum := by
  obtain ⟨hp, hl⟩ := lookupTitle_aggregate_some rms p T l h
  constructor
  · intro pr hpr
    rw [hl] at hpr
    obtain ⟨rm, hrm, m, hm, ht, _, hpr2⟩ := mem_contribAll_elim rms p T pr hpr
    exact ⟨rm, hrm, m, hm, ht, hpr2⟩
  · intro r
    rw [hl, contribAll_of_pos p T rms hp]
    exact count_filter_flatten rms T r

/-- C8, witness at the spec's scenario: the group `Sprint 1` has members
from `a/x` and `a/y` only, each with the exact title, one pair per
matching milestone. -/
theorem aggregate_group_invariant_witness :
    (∀ pr ∈ ([("u1", "a/x"), ("u2", "a/y")] : MemberList),
        ∃ rm ∈ [(⟨"a/x", [⟨"Sprint 1", "u1"⟩]⟩ : RepositoryMilestones),
                ⟨"a/y", [⟨"Sprint 1", "u2"⟩, ⟨"Sprint 2", "u3"⟩]⟩],
          ∃ m ∈ rm.milestones, m.title = "Sprint 1" ∧ pr = (m.url, rm.repository))
    ∧ ∀ r : String,
        (([("u1", "a/x"), ("u2", "a/y")] : MemberList).filter (fun pr => pr.2 == r)).length
          = ((([(⟨"a/x", [⟨"Sprint 1", "u1"⟩]⟩ : RepositoryMilestones),
                ⟨"a/y", [⟨"Sprint 1", "u2"⟩, ⟨"Sprint 2", "u3"⟩]⟩]).filter
                (fun rm => rm.repository == r)).map
              (fun rm => (rm.milestones.filter (fun m => m.title == "Sprint 1")).length)).sum :=
  aggregate_group_invariant
    [⟨"a/x", [⟨"Sprint 1", "u1"⟩]⟩, ⟨"a/y", [⟨"Sprint 1", "u2"⟩, ⟨"Sprint 2", "u3"⟩]⟩]
    (fun t => t == "Sprint 1") "Sprint 1" [("u1", "a/x"), ("u2", "a/y")] (by rfl)

/-- C9: the pattern is applied as an unanchored search — a literal pattern
matches a title exactly when it occurs as a substring of the title, so the
pattern `Sprint 1` also matches a milestone titled `Sprint 10`, which the
aggregation then groups under its full title. -/
theorem pattern_is_unanchored_search :
    (∀ pat title : String, isMatchLiteral pat title = true
        ↔ ∃ pre suf : List Char, pre ++ pat.toList ++ suf = title.toList)
    ∧ isMatchLiteral "Sprint 1" "Sprint 10" = true
    ∧ lookupTitle (aggregate [⟨"a/x", [⟨"Sprint 10", "u1"⟩]⟩] (isMatchLiteral "Sprint 1"))
          "Sprint 10"
        = some [("u1", "a/x")] := by
  refine ⟨?_, by decide, by rfl⟩
  intro pat title
  rw [isMatchLiteral, decide_eq_true_iff]
  exact Iff.rfl

/-- C10: a missing configuration file is not fatal — settings fall back to
the defaults (empty repository list, no credentials), so a `close-milestone`
run then fails with the missing-credentials error `AuthRequired` rather
than a configuration error; only an existing-but-unparsable configuration
file produces `InvalidConfigFile`. -/
theorem missing_config_not_fatal_auth_required (patternStr : String) (p : String → Bool)
    (fetchEnv : String → FetchOutcome) (confirm : String → Bool)
    (closeEnv : String → CloseOutcome) :
    loadSettings .missing = .ok ⟨⟨[], none⟩⟩
    ∧ mainRun true .missing patternStr p fetchEnv confirm closeEnv = .error .AuthRequired
    ∧ ∀ e, mainRun true (.present (.error e)) patternStr p fetchEnv confirm closeEnv
        = .error (.InvalidConfigFile e) :=
  ⟨rfl, rfl, fun _ => rfl⟩

end GhCli

